import Mathlib

set_option maxRecDepth 8000
/-!
Shallow embedding of the NeuroLock core pipeline (src/src/feature_extraction.c,
src/src/template.c, src/src/utils.c, src/src/hashing.c) and proofs about it.

Modelling conventions:
* C `float` values are embedded as exact rationals (`ℚ`).  The transcendental
  float routines `sqrtf`, `cosf`, `sinf` and the float constant `M_PI` have no
  exact rational counterpart, so every definition that calls them takes the
  corresponding function (`sqrtA`, `cosA`, `sinA`) or constant (`piA`) as an
  explicit parameter; a theorem that needs `sqrtA` to behave like a genuine
  square root says so by hypothesis, and witnesses instantiate these
  parameters with functions that are exact at the concrete inputs involved.
* C buffers are embedded as `List ℚ` / `List Nat`; a `size` field of a struct
  is kept as a separate `Nat` field, exactly as in the source structs.
  NULL-pointer argument checks in the C sources have no counterpart here: an
  input of the embedding always denotes a valid, non-NULL structure.
* `malloc`/`calloc` are modelled as always succeeding (`calloc` yields a
  zero-filled list); the C error paths taken only on allocation failure or
  `fopen` failure are therefore absent from the embedding.
* Writing `out[idx++] = v` sequentially from index 0 is modelled by
  `overwriteStart`, which replaces a prefix of the buffer.
* Files are lists of bytes (`List Nat`, each entry < 256).  Multi-byte scalar
  fields (`uint32_t`, `size_t`, `time_t`, the `MentalTask` enum) are written
  little-endian with the widths of the x86-64 ABI the code is built for.  The
  4-byte IEEE-754 image of a `float` is abstracted as a parameter
  `encFloat : ℚ → List Nat` (and `decFloat` for reading); witnesses use the
  true image `[0,0,0,0]` of `0.0f`.
* `fread` that hits end of file fills the unread tail of the destination from
  the destination's previous contents; for stack scalars that previous
  content is uninitialised memory, modelled by an explicit fill byte `junk`.
-/

namespace NeuroLock

/-- EEGData from src/include/capture.h: flat channel-major sample buffer. -/
structure EEGData where
  data : List ℚ
  num_channels : Nat
  num_samples : Nat
  sampling_rate : ℚ
  timestamp : Nat
  task_type : Nat
deriving DecidableEq, Repr

/-- FeatureVector from src/include/feature_extraction.h. -/
structure FeatureVector where
  features : List ℚ
  size : Nat
  task_type : Nat
  timestamp : Nat
deriving DecidableEq, Repr

/-- HashData from src/include/hashing.h. -/
structure HashData where
  hash : List Nat
  hash_size : Nat
  salt : List Nat
  salt_size : Nat
deriving DecidableEq, Repr

/-- Template from src/include/template.h.  `username` models the whole
`char[64]` array, so a well-formed value has length 64. -/
structure Template where
  username : List Nat
  hash : HashData
  features : FeatureVector
  task_type : Nat
  created_at : Nat
  last_used : Nat
  version : Nat
deriving DecidableEq, Repr

/-- AuthResult from src/include/template.h. -/
structure AuthResult where
  authenticated : Int
  similarity_score : ℚ
  timestamp : Nat
  attempts : Nat
deriving DecidableEq, Repr

/-- calculate_mean from src/src/utils.c. -/
def calculate_mean (xs : List ℚ) : ℚ :=
  if xs.length = 0 then 0 else xs.sum / (xs.length : ℚ)

/-- The quantity `sum_sq_diff / size` computed inside calculate_std_dev
(src/src/utils.c): the biased sample variance. -/
def sample_variance (xs : List ℚ) : ℚ :=
  ((xs.map (fun x => (x - calculate_mean xs) * (x - calculate_mean xs))).sum) / (xs.length : ℚ)

/-- calculate_std_dev from src/src/utils.c: `sqrtf` of the sample variance,
with the float square root abstracted as `sqrtA`. -/
def calculate_std_dev (sqrtA : ℚ → ℚ) (xs : List ℚ) : ℚ :=
  if xs.length = 0 then 0 else sqrtA (sample_variance xs)

/-- dot_product from src/src/utils.c: reads `size` entries of each buffer. -/
def dot_product (xs ys : List ℚ) (n : Nat) : ℚ :=
  ((List.range n).map (fun i => xs.getD i 0 * ys.getD i 0)).sum

/-- vector_magnitude from src/src/utils.c: `sqrtf` of the sum of squares of
the first `n` entries, with the float square root abstracted as `sqrtA`. -/
def vector_magnitude (sqrtA : ℚ → ℚ) (xs : List ℚ) (n : Nat) : ℚ :=
  sqrtA (((List.range n).map (fun i => xs.getD i 0 * xs.getD i 0)).sum)

/-- calculate_similarity from src/src/template.c lines 241-268. -/
def calculate_similarity (sqrtA : ℚ → ℚ) (v1 v2 : FeatureVector) : ℚ :=
  if v1.size ≠ v2.size then -1
  else
    let dot := dot_product v1.features v2.features v1.size
    let mag1 := vector_magnitude sqrtA v1.features v1.size
    let mag2 := vector_magnitude sqrtA v2.features v2.size
    if mag1 < 1/1000000 ∨ mag2 < 1/1000000 then -1
    else
      let s := dot / (mag1 * mag2)
      let s0 := if s < 0 then 0 else s
      if 1 < s0 then 1 else s0

/-- Square-root function used by the C5 witness: exact at the one sum of
squares that the witness vectors produce. -/
def sqrtW : ℚ → ℚ := fun q => if q = 25 then 5 else 0

/-- Witness vector for C5: magnitude 5. -/
def vecW : FeatureVector := { features := [3, 4], size := 2, task_type := 0, timestamp := 0 }

/-- Sequential writes `out[idx++] = v` starting at index 0 overwrite a prefix
of the destination buffer. -/
def overwriteStart (old new : List ℚ) : List ℚ :=
  new ++ old.drop new.length

/-- average_feature_vectors from src/src/feature_extraction.c lines 322-353. -/
def average_feature_vectors (vectors : List FeatureVector) (output : FeatureVector)
    (now : Nat) : Int × FeatureVector :=
  match vectors with
  | [] => (-1, output)
  | v0 :: rest =>
    if rest.any (fun v => v.size != v0.size) then (-1, output)
    else
      let means := (List.range v0.size).map (fun j =>
        (((v0 :: rest).map (fun v => v.features.getD j 0)).sum) / (((v0 :: rest).length : ℚ)))
      (0, { output with
              features := overwriteStart output.features means,
              size := v0.size,
              task_type := v0.task_type,
              timestamp := now })

/-- Modelled from the spec's words ("Output: elementwise arithmetic mean"),
for comparison with the code's average_feature_vectors. -/
def elementwise_mean_spec (vecs : List (List ℚ)) : List ℚ :=
  (List.range (vecs.headD []).length).map (fun j =>
    ((vecs.map (fun l => l.getD j 0)).sum) / ((vecs.length : ℚ)))

/-- Witness vector for C6. -/
def vecW6 : FeatureVector := { features := [2, 4], size := 2, task_type := 1, timestamp := 0 }

/-- Output buffer for the C6 witness. -/
def outW6 : FeatureVector := { features := [0, 0], size := 2, task_type := 0, timestamp := 0 }

/-- The channel-`ch` view `data + ch * num_samples` of the flat sample buffer
(`num_samples` entries). -/
def channel_slice (d : List ℚ) (ns ch : Nat) : List ℚ :=
  (d.drop (ch * ns)).take ns

/-- The per-channel body of normalize_signal (src/src/feature_extraction.c
lines 78-93): subtract the mean and divide by the standard deviation, with
the divisor forced to 1.0 when the standard deviation is below 1e-6. -/
def normalize_channel (sqrtA : ℚ → ℚ) (xs : List ℚ) : List ℚ :=
  let mean := calculate_mean xs
  let std_dev := calculate_std_dev sqrtA xs
  let divisor := if std_dev < 1/1000000 then 1 else std_dev
  xs.map (fun x => (x - mean) / divisor)

/-- normalize_signal from src/src/feature_extraction.c lines 67-97: each
channel of the flat buffer is rewritten in place; the channel regions are
disjoint, so the result is the concatenation of the per-channel results
(plus any buffer tail beyond `num_channels * num_samples`, untouched). -/
def normalize_signal (sqrtA : ℚ → ℚ) (e : EEGData) : Int × EEGData :=
  (0, { e with data :=
    ((List.range e.num_channels).map (fun ch =>
      normalize_channel sqrtA (channel_slice e.data e.num_samples ch))).flatten
    ++ e.data.drop (e.num_channels * e.num_samples) })

/-- Square-root function exact at 0, used by the C8 counterexample: the only
value it is applied to there is the sample variance 0, whose float square
root is exactly 0. -/
def sqrtZ : ℚ → ℚ := fun _ => 0

/-- A one-channel signal whose samples are constant (variance 0). -/
def eegConst : EEGData :=
  { data := [5, 5], num_channels := 1, num_samples := 2, sampling_rate := 256,
    timestamp := 0, task_type := 0 }

/-- Square-root function exact at 0 and 1, used by the C8 witness. -/
def sqrtO : ℚ → ℚ := fun q => if q = 1 then 1 else 0

/-- A one-channel signal with mean 0 and variance 1. -/
def eegPM : EEGData :=
  { data := [1, -1], num_channels := 1, num_samples := 2, sampling_rate := 256,
    timestamp := 0, task_type := 0 }

/-- filter_bandpass from src/src/feature_extraction.c lines 15-28: the body
is a placeholder (TODO) that leaves the data untouched and reports
success (0). -/
def filter_bandpass (data : EEGData) (low_freq high_freq : ℚ) : Int × EEGData :=
  (0, data)

/-- filter_notch from src/src/feature_extraction.c lines 33-45: placeholder
that leaves the data untouched and reports success (0). -/
def filter_notch (data : EEGData) (notch_freq : ℚ) : Int × EEGData :=
  (0, data)

/-- remove_eye_artifacts from src/src/feature_extraction.c lines 50-62:
placeholder that leaves the data untouched and reports success (0). -/
def remove_eye_artifacts (data : EEGData) : Int × EEGData :=
  (0, data)

/-- The `(size_t)` cast of a non-negative float value. -/
def ratToNat (q : ℚ) : Nat :=
  q.floor.toNat

/-- compute_fft from src/src/feature_extraction.c lines 102-127: a direct
DFT producing `size / 2` magnitudes, with `M_PI`, `cosf`, `sinf`, `sqrtf`
abstracted as `piA`, `cosA`, `sinA`, `sqrtA`. -/
def compute_fft (piA : ℚ) (cosA sinA sqrtA : ℚ → ℚ) (input : List ℚ) (size : Nat) :
    List ℚ :=
  (List.range (size / 2)).map (fun k =>
    let real := ((List.range size).map (fun n =>
      input.getD n 0 * cosA (2 * piA * (k : ℚ) * (n : ℚ) / (size : ℚ)))).sum
    let imag := -(((List.range size).map (fun n =>
      input.getD n 0 * sinA (2 * piA * (k : ℚ) * (n : ℚ) / (size : ℚ)))).sum)
    sqrtA (real * real + imag * imag))

/-- One band loop of extract_band_power: sum of squared spectrum magnitudes
for bin indices from `(size_t)(lo / fr)` while below `(size_t)(hi / fr)` and
below `fft_size`. -/
def band_power_sum (spectrum : List ℚ) (fr lo hi : ℚ) (fft_size : Nat) : ℚ :=
  let iLo := ratToNat (lo / fr)
  let iHi := min (ratToNat (hi / fr)) fft_size
  ((List.range' iLo (iHi - iLo)).map (fun i => spectrum.getD i 0 * spectrum.getD i 0)).sum

/-- The five per-channel band powers written by extract_band_power
(src/src/feature_extraction.c lines 151-199), using the config.h band
bounds (delta 0.5-4, theta 4-8, alpha 8-13, beta 13-30, gamma 30-100),
WINDOW_SIZE = 256 and fft_size = 128. -/
def bandPowers (piA : ℚ) (cosA sinA sqrtA : ℚ → ℚ) (chan : List ℚ) (rate : ℚ) :
    List ℚ :=
  let fft_output := compute_fft piA cosA sinA sqrtA chan 256
  let fr := rate / 256
  [band_power_sum fft_output fr (1/2) 4 128,
   band_power_sum fft_output fr 4 8 128,
   band_power_sum fft_output fr 8 13 128,
   band_power_sum fft_output fr 13 30 128,
   band_power_sum fft_output fr 30 100 128]

/-- extract_band_power from src/src/feature_extraction.c lines 132-207: when
`num_samples >= WINDOW_SIZE` it writes five band powers per channel
sequentially from feature index 0; otherwise the per-channel branch writes
nothing at all (`feature_idx` is never advanced).  It returns 0 in both
cases. -/
def extract_band_power (piA : ℚ) (cosA sinA sqrtA : ℚ → ℚ) (data : EEGData)
    (output : FeatureVector) : Int × FeatureVector :=
  let written := if 256 ≤ data.num_samples then
      ((List.range data.num_channels).map (fun ch =>
        bandPowers piA cosA sinA sqrtA (channel_slice data.data data.num_samples ch)
          data.sampling_rate)).flatten
    else []
  (0, { output with features := overwriteStart output.features written })

/-- feature_vector_alloc from src/src/feature_extraction.c lines 285-304:
`calloc` makes the feature buffer all-zero; task defaults to
TASK_EYES_CLOSED_REST (0) and timestamp to 0. -/
def feature_vector_alloc (size : Nat) : FeatureVector :=
  { features := List.replicate size 0, size := size, task_type := 0, timestamp := 0 }

/-- eeg_data_alloc from src/src/capture.c lines 250-271. -/
def eeg_data_alloc (num_channels num_samples : Nat) : EEGData :=
  { data := List.replicate (num_channels * num_samples) 0,
    num_channels := num_channels, num_samples := num_samples,
    sampling_rate := 256, timestamp := 0, task_type := 0 }

/-- extract_features from src/src/feature_extraction.c lines 239-280: copy
the input into a fresh buffer, run the three (stub) filters and
normalization, extract band powers, and stamp the output with the input's
task and the current time (`get_timestamp_ms`, passed here as `now`).  The
status of the stub filters and of normalize_signal is ignored by the code;
the returned status is that of extract_band_power. -/
def extract_features (piA : ℚ) (cosA sinA sqrtA : ℚ → ℚ) (data : EEGData)
    (output : FeatureVector) (now : Nat) : Int × FeatureVector :=
  let filtered0 : EEGData :=
    { eeg_data_alloc data.num_channels data.num_samples with
        data := overwriteStart (eeg_data_alloc data.num_channels data.num_samples).data
          (data.data.take (data.num_channels * data.num_samples)),
        sampling_rate := data.sampling_rate }
  let f1 := (filter_bandpass filtered0 (1/2) 50).snd
  let f2 := (filter_notch f1 50).snd
  let f3 := (remove_eye_artifacts f2).snd
  let f4 := (normalize_signal sqrtA f3).snd
  let result := extract_band_power piA cosA sinA sqrtA f4 output
  (result.fst, { result.snd with task_type := data.task_type, timestamp := now })

/-- template_authenticate from src/src/template.c lines 300-340: extract
trial features (FEATURE_VECTOR_SIZE = 40), compute the similarity, fill the
result and return 0; `none` stands for the result struct being left
untouched on the early-error path.  `now` is the extraction timestamp,
`tnow` the authentication timestamp. -/
def template_authenticate (piA : ℚ) (cosA sinA sqrtA : ℚ → ℚ) (trial : EEGData)
    (tmpl : Template) (now tnow : Nat) : Int × Option AuthResult :=
  let r := extract_features piA cosA sinA sqrtA trial (feature_vector_alloc 40) now
  if r.fst ≠ 0 then (-1, none)
  else
    let similarity := calculate_similarity sqrtA r.snd tmpl.features
    (0, some { authenticated := if (0.85 : ℚ) ≤ similarity then 1 else 0,
               similarity_score := similarity, timestamp := tnow, attempts := 1 })

/-- A one-channel, one-sample signal (fewer than WINDOW_SIZE samples). -/
def eegSmall : EEGData :=
  { data := [1], num_channels := 1, num_samples := 1, sampling_rate := 256,
    timestamp := 0, task_type := 2 }

/-- Template used by the C10 witness: an all-zero stored feature vector of
size 40, so that the comparison against it hits the zero-magnitude
sentinel. -/
def tmplZeroFeatures : Template :=
  { username := List.replicate 64 97,
    hash := { hash := List.replicate 32 1, hash_size := 32,
              salt := List.replicate 32 7, salt_size := 32 },
    features := feature_vector_alloc 40,
    task_type := 0, created_at := 111, last_used := 222, version := 1 }

/-- Little-endian encoding of a scalar into `w` bytes (fwrite of a
`w`-byte integer field on the little-endian x86-64 target). -/
def encLE : Nat → Nat → List Nat
  | 0, _ => []
  | w + 1, n => n % 256 :: encLE w (n / 256)

/-- Little-endian decoding of a byte list. -/
def decLE (bs : List Nat) : Nat :=
  bs.foldr (fun b acc => b + 256 * acc) 0

/-- The bytes of `file` at position `p`, at most `n` of them. -/
def bytesAt (file : List Nat) (p n : Nat) : List Nat :=
  (file.drop p).take n

/-- Destination buffer after `fread(buf, 1, n, fp)` at position `p`: the
bytes actually available, then the untouched tail of the previous buffer
contents. -/
def freadBuf (file : List Nat) (p n : Nat) (old : List Nat) : List Nat :=
  bytesAt file p n ++ old.drop (bytesAt file p n).length

/-- Stream position after reading `n` bytes at position `p`. -/
def freadPos (file : List Nat) (p n : Nat) : Nat :=
  p + (bytesAt file p n).length

/-- `fread` of one `w`-byte scalar into an uninitialised stack variable
(previous contents: `junk` bytes): decoded value and new position. -/
def freadScalar (file : List Nat) (p w junk : Nat) : Nat × Nat :=
  (decLE (freadBuf file p w (List.replicate w junk)), freadPos file p w)

/-- `fseek(fp, off, SEEK_CUR)`: seeking before the start of the file fails
and leaves the position unchanged. -/
def cseek (p : Nat) (off : Int) : Nat :=
  if (p : Int) + off < 0 then p else ((p : Int) + off).toNat

/-- Split a byte list into consecutive 4-byte `float` images. -/
def chunk4 : List Nat → List (List Nat)
  | a :: b :: c :: d :: rest => [a, b, c, d] :: chunk4 rest
  | _ => []

/-- template_save from src/src/template.c lines 133-174, as the byte image
of the written file: version (u32), the 64-byte username array, task enum
(i32), created_at and last_used (i64 each), feature count (size_t) then the
4-byte float images, hash length (size_t) then hash bytes, salt length
(size_t) then salt bytes. -/
def template_save (encFloat : ℚ → List Nat) (t : Template) : List Nat :=
  encLE 4 t.version ++ t.username ++ encLE 4 t.task_type
    ++ encLE 8 t.created_at ++ encLE 8 t.last_used
    ++ encLE 8 t.features.size
    ++ ((t.features.features.take t.features.size).map encFloat).flatten
    ++ encLE 8 t.hash.hash_size ++ t.hash.hash.take t.hash.hash_size
    ++ encLE 8 t.hash.salt_size ++ t.hash.salt.take t.hash.salt_size

/-- Filesystem operations a template_save call can perform. -/
inductive FsOp where
  | mkdirp (path : String)
  | openw (path : String)
  | writeBytes (bytes : List Nat)
  | closef
  | renamef (src dst : String)
deriving DecidableEq, Repr

/-- The filesystem trace of a successful template_save (src/src/template.c
lines 133-174): ensure TEMPLATE_DIR exists, open the destination path
itself for writing, write the record, close. -/
def template_save_trace (encFloat : ℚ → List Nat) (t : Template) (filepath : String) :
    List FsOp :=
  [FsOp.mkdirp "./templates", FsOp.openw filepath,
   FsOp.writeBytes (template_save encFloat t), FsOp.closef]

/-- What claim C4 asserts of a save trace: the record is written to a
temporary path that is then renamed onto the destination, and the
destination itself is never opened for writing. -/
def atomic_save (ops : List FsOp) (dst : String) : Prop :=
  ∃ tmp, tmp ≠ dst ∧ FsOp.openw tmp ∈ ops ∧ FsOp.renamef tmp dst ∈ ops ∧
    FsOp.openw dst ∉ ops

/-- template_load from src/src/template.c lines 179-236, byte for byte: no
length field is checked, no fread result is checked, and the return value
is 0 for every file content (the C early returns fire only on fopen or
allocation failure, which the embedding's inputs rule out).  The seeks
reproduce the source exactly: after reading the hash length the code reads
the next 8 bytes (the first hash bytes) as the salt length, re-reads them
into the salt_size field after seeking back 8, seeks back a further
`16 + hash_size` bytes (landing `8 + hash_size` bytes before the hash
length field), reads `hash_size` bytes as the hash, seeks forward 8 and
reads `salt_size` bytes as the salt. -/
def template_load (decFloat : List Nat → ℚ) (junk : Nat) (file : List Nat) :
    Int × Template :=
  let v := freadScalar file 0 4 junk
  let username := freadBuf file v.snd 64 (List.replicate 64 junk)
  let p1 := freadPos file v.snd 64
  let task := freadScalar file p1 4 junk
  let created := freadScalar file task.snd 8 junk
  let last := freadScalar file created.snd 8 junk
  let fsz := freadScalar file last.snd 8 junk
  let featBytes := freadBuf file fsz.snd (4 * fsz.fst) (List.replicate (4 * fsz.fst) 0)
  let p2 := freadPos file fsz.snd (4 * fsz.fst)
  let hsz := freadScalar file p2 8 junk
  let ssz := freadScalar file hsz.snd 8 junk
  let p3 := cseek ssz.snd (-8)
  let ssz2 := freadScalar file p3 8 junk
  let p4 := cseek ssz2.snd (-(8 * 2 + (hsz.fst : Int)))
  let hashBuf := freadBuf file p4 hsz.fst (List.replicate hsz.fst 0)
  let p5 := freadPos file p4 hsz.fst
  let p6 := cseek p5 8
  let saltBuf := freadBuf file p6 ssz.fst (List.replicate ssz.fst 0)
  (0,
   { username := username,
     hash := { hash := hashBuf, hash_size := hsz.fst, salt := saltBuf,
               salt_size := ssz2.fst },
     features := { features := (chunk4 featBytes).map decFloat, size := fsz.fst,
                   task_type := 0, timestamp := 0 },
     task_type := task.fst, created_at := created.fst, last_used := last.fst,
     version := v.fst })

/-- Float byte-image used by the store counterexamples: every feature of the
concrete template below is 0.0f, whose IEEE-754 image is [0,0,0,0]. -/
def encFZero : ℚ → List Nat := fun _ => [0, 0, 0, 0]

/-- Float byte-decoder matching `encFZero` on the all-zero images. -/
def decFZero : List Nat → ℚ := fun _ => 0

/-- Concrete well-formed template for the store claims: 40 zero features,
32-byte hash [1,0,...,0], 32-byte salt of 7s, 64-byte username of 97s. -/
def tmplRT : Template :=
  { username := List.replicate 64 97,
    hash := { hash := 1 :: List.replicate 31 0, hash_size := 32,
              salt := List.replicate 32 7, salt_size := 32 },
    features := feature_vector_alloc 40,
    task_type := 3, created_at := 111, last_used := 222, version := 1 }

/-- A strict prefix of the saved file: the last 8 salt bytes are missing. -/
def truncatedFile : List Nat :=
  (template_save encFZero tmplRT).take 328

/-- C5: calculate_similarity returns the cosine similarity
dot(a,b)/(‖a‖·‖b‖) clamped to [0,1] when the sizes agree and both computed
magnitudes are at least 1e-6, and returns the sentinel −1 (which is not a
valid score) when the sizes differ or either magnitude is below 1e-6. -/
theorem calculate_similarity_spec (sqrtA : ℚ → ℚ) (v1 v2 : FeatureVector) :
    (v1.size ≠ v2.size → calculate_similarity sqrtA v1 v2 = -1) ∧
    (v1.size = v2.size →
      (vector_magnitude sqrtA v1.features v1.size < 1/1000000 ∨
          vector_magnitude sqrtA v2.features v2.size < 1/1000000 →
        calculate_similarity sqrtA v1 v2 = -1) ∧
      (1/1000000 ≤ vector_magnitude sqrtA v1.features v1.size →
        1/1000000 ≤ vector_magnitude sqrtA v2.features v2.size →
        calculate_similarity sqrtA v1 v2 =
          min 1 (max 0 (dot_product v1.features v2.features v1.size /
            (vector_magnitude sqrtA v1.features v1.size *
              vector_magnitude sqrtA v2.features v2.size))) ∧
        0 ≤ calculate_similarity sqrtA v1 v2 ∧
        calculate_similarity sqrtA v1 v2 ≤ 1)) ∧
    ((-1 : ℚ) < 0) := by
  refine ⟨fun h => ?_, fun hsz => ?_, by norm_num⟩
  · simp only [calculate_similarity, if_pos h]
  have hne : ¬ v1.size ≠ v2.size := not_not_intro hsz
  refine ⟨fun hmag => ?_, fun hm1 hm2 => ?_⟩
  · simp only [calculate_similarity, if_neg hne, if_pos hmag]
  have hnot : ¬ (vector_magnitude sqrtA v1.features v1.size < 1/1000000 ∨
      vector_magnitude sqrtA v2.features v2.size < 1/1000000) := by
    push_neg
    exact ⟨hm1, hm2⟩
  have hval : calculate_similarity sqrtA v1 v2 =
      min 1 (max 0 (dot_product v1.features v2.features v1.size /
        (vector_magnitude sqrtA v1.features v1.size *
          vector_magnitude sqrtA v2.features v2.size))) := by
    simp only [calculate_similarity, if_neg hne, if_neg hnot]
    set s := dot_product v1.features v2.features v1.size /
      (vector_magnitude sqrtA v1.features v1.size *
        vector_magnitude sqrtA v2.features v2.size) with hs
    have h0 : (if s < 0 then (0 : ℚ) else s) = max 0 s := by
      split_ifs with h
      · exact (max_eq_left h.le).symm
      · exact (max_eq_right (not_lt.mp h)).symm
    rw [h0]
    split_ifs with h1
    · exact (min_eq_left h1.le).symm
    · exact (min_eq_right (not_lt.mp h1)).symm
  refine ⟨hval, ?_, ?_⟩
  · rw [hval]
    exact le_min (by norm_num) (le_max_left 0 _)
  · rw [hval]
    exact min_le_left 1 _

/-- The code magnitude of the C5 witness vector evaluates to 5. -/
theorem vecW_magnitude : vector_magnitude sqrtW vecW.features vecW.size = 5 := by
  norm_num [vector_magnitude, sqrtW, vecW, List.range_succ]

/-- Witness for C5 at the concrete vector (3,4) against itself. -/
theorem calculate_similarity_spec_witness :
    calculate_similarity sqrtW vecW vecW =
      min 1 (max 0 (dot_product vecW.features vecW.features vecW.size /
        (vector_magnitude sqrtW vecW.features vecW.size *
          vector_magnitude sqrtW vecW.features vecW.size))) ∧
    0 ≤ calculate_similarity sqrtW vecW vecW ∧
    calculate_similarity sqrtW vecW vecW ≤ 1 :=
  ((calculate_similarity_spec sqrtW vecW vecW).2.1 rfl).2
    (by rw [vecW_magnitude]; norm_num) (by rw [vecW_magnitude]; norm_num)

lemma range_map_getD (l : List ℚ) :
    (List.range l.length).map (fun j => l.getD j 0) = l := by
  induction l with
  | nil => simp
  | cons x xs ih =>
    rw [List.length_cons, List.range_succ_eq_map, List.map_cons, List.map_map]
    refine congrArg (x :: ·) ?_
    have hcomp : ((fun j => (x :: xs).getD j 0) ∘ Nat.succ) = (fun j => xs.getD j 0) := by
      funext j
      simp [List.getD_cons_succ]
    rw [hcomp, ih]

lemma average_eq_mean (v0 : FeatureVector) (rest : List FeatureVector)
    (out : FeatureVector) (now : Nat)
    (hsz : ∀ v ∈ v0 :: rest, v.size = v0.size)
    (h0 : v0.features.length = v0.size)
    (hout : out.features.length = v0.size) :
    (average_feature_vectors (v0 :: rest) out now).snd.features =
      elementwise_mean_spec ((v0 :: rest).map (fun v => v.features)) := by
  have hany : ¬ (rest.any (fun v => v.size != v0.size) = true) := by
    rw [List.any_eq_true]
    rintro ⟨v, hv, hne⟩
    exact bne_iff_ne.mp hne (hsz v (List.mem_cons_of_mem _ hv))
  simp only [average_feature_vectors, if_neg hany, overwriteStart]
  have hlen : ((List.range v0.size).map (fun j =>
      (((v0 :: rest).map (fun v => v.features.getD j 0)).sum) /
        (((v0 :: rest).length : ℚ)))).length = v0.size := by
    rw [List.length_map, List.length_range]
  have hdrop : out.features.drop v0.size = [] := by
    rw [← hout]
    exact List.drop_length _
  rw [hlen, hdrop, List.append_nil]
  simp [elementwise_mean_spec, List.map_map, Function.comp, h0]
  intro a _
  rfl

/-- C6: average_feature_vectors fails (status −1) exactly when the input list
is empty or some vector's size differs from the first; on success it writes
the elementwise arithmetic mean, and averaging a single vector returns its
elements unchanged. -/
theorem average_feature_vectors_spec :
    (∀ (vs : List FeatureVector) (out : FeatureVector) (now : Nat),
      ((average_feature_vectors vs out now).fst = 0 ↔
        ∃ v0 rest, vs = v0 :: rest ∧ ∀ v ∈ rest, v.size = v0.size)) ∧
    (∀ (v0 : FeatureVector) (rest : List FeatureVector) (out : FeatureVector) (now : Nat),
      (∀ v ∈ v0 :: rest, v.size = v0.size) →
      v0.features.length = v0.size →
      out.features.length = v0.size →
      (average_feature_vectors (v0 :: rest) out now).snd.features =
        elementwise_mean_spec ((v0 :: rest).map (fun v => v.features))) ∧
    (∀ (v : FeatureVector) (out : FeatureVector) (now : Nat),
      v.features.length = v.size →
      out.features.length = v.size →
      (average_feature_vectors [v] out now).snd.features = v.features) := by
  refine ⟨?_, fun v0 rest out now hsz h0 hout => average_eq_mean v0 rest out now hsz h0 hout, ?_⟩
  · intro vs out now
    cases vs with
    | nil =>
      constructor
      · intro h
        exact absurd h (by simp [average_feature_vectors])
      · rintro ⟨v0, rest, heq, -⟩
        exact List.noConfusion heq
    | cons v0 rest =>
      by_cases h : rest.any (fun v => v.size != v0.size) = true
      · constructor
        · intro hfst
          exfalso
          simp only [average_feature_vectors, if_pos h] at hfst
          exact absurd hfst (by norm_num)
        · rintro ⟨v0', rest', heq, hall⟩
          obtain ⟨rfl, rfl⟩ : v0' = v0 ∧ rest' = rest := by
            injection heq with h1 h2
            exact ⟨h1.symm, h2.symm⟩
          obtain ⟨v, hv, hne⟩ := List.any_eq_true.mp h
          exact absurd (hall v hv) (bne_iff_ne.mp hne)
      · constructor
        · intro _
          refine ⟨v0, rest, rfl, fun v hv => ?_⟩
          by_contra hne
          exact h (List.any_eq_true.mpr ⟨v, hv, bne_iff_ne.mpr hne⟩)
        · intro _
          simp only [average_feature_vectors, if_neg h]
  · intro v out now h0 hout
    rw [average_eq_mean v [] out now (fun u hu => by rw [List.mem_singleton.mp hu]) h0 hout]
    simp only [elementwise_mean_spec, List.map_cons, List.map_nil, List.headD_cons,
      List.length_cons, List.length_nil, List.sum_cons, List.sum_nil, add_zero]
    push_cast
    simp only [div_one]
    exact range_map_getD v.features

/-- Witness for C6: a successful status on a singleton list, and averaging
that single vector returns its elements unchanged. -/
theorem average_feature_vectors_spec_witness :
    (average_feature_vectors [vecW6] outW6 7).fst = 0 ∧
    (average_feature_vectors [vecW6] outW6 7).snd.features = vecW6.features := by
  refine ⟨(average_feature_vectors_spec.1 [vecW6] outW6 7).mpr ⟨vecW6, [], rfl, by simp⟩, ?_⟩
  exact average_feature_vectors_spec.2.2 vecW6 outW6 7 rfl rfl

lemma channel_slice_join (bs : List (List ℚ)) (ns : Nat)
    (h : ∀ b ∈ bs, b.length = ns) (ch : Nat) (hch : ch < bs.length)
    (tail : List ℚ) :
    channel_slice (bs.flatten ++ tail) ns ch = bs.getD ch [] := by
  induction bs generalizing ch with
  | nil => exact absurd hch (by simp)
  | cons b bs ih =>
    cases ch with
    | zero =>
      have hb : b.length = ns := h b (List.mem_cons_self b bs)
      simp only [channel_slice, Nat.zero_mul, List.drop_zero, List.flatten_cons,
        List.append_assoc, List.getD_cons_zero]
      rw [← hb]
      exact List.take_left b _
    | succ ch =>
      have hb : b.length = ns := h b (List.mem_cons_self b bs)
      have hmul : (ch + 1) * ns = b.length + ch * ns := by
        rw [hb]
        ring
      simp only [channel_slice, List.flatten_cons, List.append_assoc, List.getD_cons_succ]
      rw [hmul, List.drop_append]
      exact ih (fun b hb => h b (List.mem_cons_of_mem _ hb)) ch (Nat.lt_of_succ_lt_succ hch)

lemma normalize_signal_slice (sqrtA : ℚ → ℚ) (e : EEGData) (ch : Nat)
    (hch : ch < e.num_channels)
    (hwf : e.data.length = e.num_channels * e.num_samples) :
    channel_slice (normalize_signal sqrtA e).snd.data e.num_samples ch =
      normalize_channel sqrtA (channel_slice e.data e.num_samples ch) := by
  have hlens : ∀ b ∈ (List.range e.num_channels).map (fun c =>
      normalize_channel sqrtA (channel_slice e.data e.num_samples c)),
      b.length = e.num_samples := by
    intro b hb
    obtain ⟨i, hi, rfl⟩ := List.mem_map.mp hb
    have hilt : i < e.num_channels := List.mem_range.mp hi
    have hle : i * e.num_samples + e.num_samples ≤ e.data.length := by
      rw [hwf]
      calc i * e.num_samples + e.num_samples = (i + 1) * e.num_samples := by ring
        _ ≤ e.num_channels * e.num_samples := Nat.mul_le_mul_right _ hilt
    simp only [normalize_channel, List.length_map, channel_slice, List.length_take,
      List.length_drop]
    omega
  have hch' : ch < ((List.range e.num_channels).map (fun c =>
      normalize_channel sqrtA (channel_slice e.data e.num_samples c))).length := by
    simpa using hch
  rw [show (normalize_signal sqrtA e).snd.data =
      ((List.range e.num_channels).map (fun c =>
        normalize_channel sqrtA (channel_slice e.data e.num_samples c))).flatten
      ++ e.data.drop (e.num_channels * e.num_samples) from rfl]
  rw [channel_slice_join _ _ hlens ch hch']
  rw [List.getD_eq_getElem _ _ hch']
  simp

lemma sum_map_sub (xs : List ℚ) (c : ℚ) :
    (xs.map (fun x => x - c)).sum = xs.sum - xs.length * c := by
  induction xs with
  | nil => simp
  | cons x xs ih =>
    simp [ih]
    ring

lemma sum_map_div (xs : List ℚ) (f : ℚ → ℚ) (c : ℚ) :
    (xs.map (fun x => f x / c)).sum = (xs.map f).sum / c := by
  induction xs with
  | nil => simp
  | cons x xs ih =>
    simp [ih, add_div]

lemma normalized_mean_var (xs : List ℚ) (σ : ℚ) (hσ : σ ≠ 0) (hne : xs ≠ [])
    (hvar : σ * σ = sample_variance xs) :
    calculate_mean (xs.map (fun x => (x - calculate_mean xs) / σ)) = 0 ∧
    sample_variance (xs.map (fun x => (x - calculate_mean xs) / σ)) = 1 := by
  have hlen0 : xs.length ≠ 0 := fun h => hne (List.length_eq_zero.mp h)
  have hn : (xs.length : ℚ) ≠ 0 := Nat.cast_ne_zero.mpr hlen0
  have hsum0 : (xs.map (fun x => (x - calculate_mean xs) / σ)).sum = 0 := by
    rw [sum_map_div xs (fun x => x - calculate_mean xs) σ, sum_map_sub]
    have hx : xs.sum - (xs.length : ℚ) * calculate_mean xs = 0 := by
      rw [calculate_mean, if_neg hlen0]
      field_simp
    rw [hx, zero_div]
  have hm0 : calculate_mean (xs.map (fun x => (x - calculate_mean xs) / σ)) = 0 := by
    rw [calculate_mean, if_neg (by simpa using hlen0), hsum0, zero_div]
  refine ⟨hm0, ?_⟩
  rw [sample_variance, hm0]
  simp only [sub_zero, List.map_map, List.length_map, Function.comp]
  have hfun : (fun x => ((x - calculate_mean xs) / σ) * ((x - calculate_mean xs) / σ)) =
      (fun x => ((x - calculate_mean xs) * (x - calculate_mean xs)) / (σ * σ)) := by
    funext x
    rw [div_mul_div_comm]
  have hS : (xs.map (fun x => (x - calculate_mean xs) * (x - calculate_mean xs))).sum =
      σ * σ * (xs.length : ℚ) := by
    rw [hvar, sample_variance, div_mul_cancel₀ _ hn]
  calc ((xs.map (fun x =>
          ((x - calculate_mean xs) / σ) * ((x - calculate_mean xs) / σ))).sum) /
        ((xs.length : ℚ)) =
      ((xs.map (fun x =>
          ((x - calculate_mean xs) * (x - calculate_mean xs)) / (σ * σ))).sum) /
        ((xs.length : ℚ)) := by rw [hfun]
    _ = (((xs.map (fun x =>
          (x - calculate_mean xs) * (x - calculate_mean xs))).sum) / (σ * σ)) /
        ((xs.length : ℚ)) := by
          rw [sum_map_div xs (fun x => (x - calculate_mean xs) * (x - calculate_mean xs)) (σ * σ)]
    _ = 1 := by
          rw [hS]
          field_simp

lemma eegConst_slice : channel_slice eegConst.data eegConst.num_samples 0 = [5, 5] := rfl

lemma eegConst_mean : calculate_mean [(5 : ℚ), 5] = 5 := by
  norm_num [calculate_mean]

lemma eegConst_std : calculate_std_dev sqrtZ [(5 : ℚ), 5] = 0 := by
  simp [calculate_std_dev, sqrtZ]

/-- C8 counterexample: the channel of `eegConst` has standard deviation 0
(variance 0 < 1e-6), yet normalize_signal does not leave its samples
unchanged — it still subtracts the mean, mapping [5, 5] to [0, 0]. -/
theorem normalize_signal_changes_constant_channel :
    calculate_std_dev sqrtZ (channel_slice eegConst.data eegConst.num_samples 0) < 1/1000000 ∧
    sample_variance (channel_slice eegConst.data eegConst.num_samples 0) < 1/1000000 ∧
    (normalize_signal sqrtZ eegConst).snd.data = [0, 0] ∧
    (normalize_signal sqrtZ eegConst).snd.data ≠ eegConst.data := by
  have hnorm : normalize_channel sqrtZ [(5 : ℚ), 5] = [0, 0] := by
    simp only [normalize_channel, eegConst_mean, eegConst_std]
    rw [if_pos (by norm_num : (0 : ℚ) < 1/1000000)]
    norm_num
  have hdata : (normalize_signal sqrtZ eegConst).snd.data = [0, 0] := by
    show ((List.range 1).map (fun ch =>
        normalize_channel sqrtZ (channel_slice eegConst.data 2 ch))).flatten
      ++ eegConst.data.drop 2 = [0, 0]
    rw [show List.range 1 = [0] from rfl, List.map_singleton]
    rw [show channel_slice eegConst.data 2 0 = [(5 : ℚ), 5] from rfl, hnorm]
    rfl
  refine ⟨?_, ?_, hdata, ?_⟩
  · rw [eegConst_slice, eegConst_std]
    norm_num
  · rw [eegConst_slice]
    norm_num [sample_variance, eegConst_mean]
  · rw [hdata]
    simp only [eegConst, ne_eq, List.cons.injEq]
    norm_num

/-- C8 (amended): normalize_signal always reports success, and on each
channel it subtracts the channel mean and divides by the channel standard
deviation, except that a channel whose standard deviation is below 1e-6 is
only mean-subtracted (divisor forced to 1.0) rather than skipped; when the
standard deviation is at least 1e-6 and is the exact square root of the
sample variance, the channel is transformed to zero mean and unit
variance. -/
theorem normalize_signal_channel_spec (sqrtA : ℚ → ℚ) (e : EEGData) (ch : Nat)
    (hch : ch < e.num_channels)
    (hwf : e.data.length = e.num_channels * e.num_samples) :
    (normalize_signal sqrtA e).fst = 0 ∧
    (calculate_std_dev sqrtA (channel_slice e.data e.num_samples ch) < 1/1000000 →
      channel_slice (normalize_signal sqrtA e).snd.data e.num_samples ch =
        (channel_slice e.data e.num_samples ch).map
          (fun x => x - calculate_mean (channel_slice e.data e.num_samples ch))) ∧
    (1/1000000 ≤ calculate_std_dev sqrtA (channel_slice e.data e.num_samples ch) →
      channel_slice (normalize_signal sqrtA e).snd.data e.num_samples ch =
        (channel_slice e.data e.num_samples ch).map
          (fun x => (x - calculate_mean (channel_slice e.data e.num_samples ch)) /
            calculate_std_dev sqrtA (channel_slice e.data e.num_samples ch)) ∧
      (calculate_std_dev sqrtA (channel_slice e.data e.num_samples ch) *
          calculate_std_dev sqrtA (channel_slice e.data e.num_samples ch) =
        sample_variance (channel_slice e.data e.num_samples ch) →
        calculate_mean (channel_slice (normalize_signal sqrtA e).snd.data e.num_samples ch) = 0 ∧
        sample_variance (channel_slice (normalize_signal sqrtA e).snd.data e.num_samples ch)
          = 1)) := by
  have hslice := normalize_signal_slice sqrtA e ch hch hwf
  refine ⟨rfl, fun hlt => ?_, fun hge => ?_⟩
  · rw [hslice]
    simp only [normalize_channel, if_pos hlt]
    simp [div_one]
  · have hdiv : (if calculate_std_dev sqrtA (channel_slice e.data e.num_samples ch)
        < 1/1000000 then (1 : ℚ)
        else calculate_std_dev sqrtA (channel_slice e.data e.num_samples ch)) =
        calculate_std_dev sqrtA (channel_slice e.data e.num_samples ch) :=
      if_neg (not_lt.mpr hge)
    have heq : channel_slice (normalize_signal sqrtA e).snd.data e.num_samples ch =
        (channel_slice e.data e.num_samples ch).map
          (fun x => (x - calculate_mean (channel_slice e.data e.num_samples ch)) /
            calculate_std_dev sqrtA (channel_slice e.data e.num_samples ch)) := by
      rw [hslice]
      simp only [normalize_channel, hdiv]
    refine ⟨heq, fun hvar => ?_⟩
    have hσpos : (0 : ℚ) < calculate_std_dev sqrtA (channel_slice e.data e.num_samples ch) :=
      lt_of_lt_of_le (by norm_num) hge
    have hne : channel_slice e.data e.num_samples ch ≠ [] := by
      intro hempty
      rw [hempty] at hge
      norm_num [calculate_std_dev] at hge
    have h := normalized_mean_var (channel_slice e.data e.num_samples ch)
      (calculate_std_dev sqrtA (channel_slice e.data e.num_samples ch))
      (ne_of_gt hσpos) hne hvar
    rw [heq]
    exact h

lemma eegPM_std : calculate_std_dev sqrtO (channel_slice eegPM.data eegPM.num_samples 0) = 1 := by
  rw [show channel_slice eegPM.data eegPM.num_samples 0 = [(1 : ℚ), -1] from rfl]
  rw [calculate_std_dev, if_neg (by norm_num)]
  have hvar : sample_variance [(1 : ℚ), -1] = 1 := by
    norm_num [sample_variance, calculate_mean]
  rw [hvar]
  simp [sqrtO]

/-- Witness for C8 (amended) on a channel with standard deviation 1 ≥ 1e-6:
it is scaled by the code formula and ends with zero mean and unit
variance. -/
theorem normalize_signal_channel_spec_witness :
    channel_slice (normalize_signal sqrtO eegPM).snd.data eegPM.num_samples 0 =
      (channel_slice eegPM.data eegPM.num_samples 0).map
        (fun x => (x - calculate_mean (channel_slice eegPM.data eegPM.num_samples 0)) /
          calculate_std_dev sqrtO (channel_slice eegPM.data eegPM.num_samples 0)) ∧
    calculate_mean (channel_slice (normalize_signal sqrtO eegPM).snd.data eegPM.num_samples 0)
      = 0 ∧
    sample_variance (channel_slice (normalize_signal sqrtO eegPM).snd.data eegPM.num_samples 0)
      = 1 := by
  have h := (normalize_signal_channel_spec sqrtO eegPM 0 (by norm_num [eegPM])
    (by norm_num [eegPM])).2.2 (by rw [eegPM_std]; norm_num)
  refine ⟨h.1, h.2 ?_⟩
  rw [eegPM_std]
  rw [show channel_slice eegPM.data eegPM.num_samples 0 = [(1 : ℚ), -1] from rfl]
  norm_num [sample_variance, calculate_mean]

/-- C2: the three preprocessing stubs (bandpass filter, notch filter,
artifact rejection) return success (0) on every valid input instead of a
NotImplemented failure, and the full pipeline extract_features consequently
also returns success (0) on every input. -/
theorem stub_stages_report_success :
    (∀ (data : EEGData) (low_freq high_freq : ℚ),
      filter_bandpass data low_freq high_freq = (0, data)) ∧
    (∀ (data : EEGData) (notch_freq : ℚ), filter_notch data notch_freq = (0, data)) ∧
    (∀ data : EEGData, remove_eye_artifacts data = (0, data)) ∧
    (∀ (piA : ℚ) (cosA sinA sqrtA : ℚ → ℚ) (data : EEGData) (output : FeatureVector)
      (now : Nat), (extract_features piA cosA sinA sqrtA data output now).fst = 0) :=
  ⟨fun _ _ _ => rfl, fun _ _ => rfl, fun _ => rfl, fun _ _ _ _ _ _ _ => rfl⟩

/-- C7: when fewer than WINDOW_SIZE (256) samples are available,
extract_band_power succeeds (status 0) and every feature slot of the
freshly allocated output vector is zero. -/
theorem extract_band_power_short_input_zero (piA : ℚ) (cosA sinA sqrtA : ℚ → ℚ)
    (data : EEGData) (n : Nat) (hshort : data.num_samples < 256) :
    extract_band_power piA cosA sinA sqrtA data (feature_vector_alloc n) =
      (0, feature_vector_alloc n) ∧
    (feature_vector_alloc n).features = List.replicate n 0 := by
  have hcond : ¬ (256 ≤ data.num_samples) := not_le.mpr hshort
  refine ⟨?_, rfl⟩
  simp only [extract_band_power, if_neg hcond, overwriteStart]
  rfl

/-- Witness for C7 at a concrete one-channel, one-sample input. -/
theorem extract_band_power_short_input_zero_witness :
    extract_band_power 0 sqrtZ sqrtZ sqrtZ eegSmall (feature_vector_alloc 40) =
      (0, feature_vector_alloc 40) ∧
    (feature_vector_alloc 40).features = List.replicate 40 0 :=
  extract_band_power_short_input_zero 0 sqrtZ sqrtZ sqrtZ eegSmall 40 (by norm_num [eegSmall])

/-- C9 counterexample: two calls of extract_features on the identical input
signal do not produce identical output structures — the timestamp field
records the time of the call, so calls at times 0 and 1 differ. -/
theorem extract_features_output_differs_across_calls :
    extract_features 0 sqrtZ sqrtZ sqrtZ eegSmall (feature_vector_alloc 40) 0 ≠
      extract_features 0 sqrtZ sqrtZ sqrtZ eegSmall (feature_vector_alloc 40) 1 := by
  intro h
  have h2 : (0 : Nat) = 1 := congrArg (fun p => p.snd.timestamp) h
  exact absurd h2 (by norm_num)

/-- C9 (amended): extract_features is a pure function of the input signal,
the current time and the abstracted float primitives; two calls on the same
input agree on the status and on every output field except the timestamp,
which records the time of the respective call. -/
theorem extract_features_deterministic_up_to_timestamp (piA : ℚ)
    (cosA sinA sqrtA : ℚ → ℚ) (data : EEGData) (output : FeatureVector) (t1 t2 : Nat) :
    (extract_features piA cosA sinA sqrtA data output t1).fst =
      (extract_features piA cosA sinA sqrtA data output t2).fst ∧
    (extract_features piA cosA sinA sqrtA data output t1).snd.features =
      (extract_features piA cosA sinA sqrtA data output t2).snd.features ∧
    (extract_features piA cosA sinA sqrtA data output t1).snd.size =
      (extract_features piA cosA sinA sqrtA data output t2).snd.size ∧
    (extract_features piA cosA sinA sqrtA data output t1).snd.task_type =
      (extract_features piA cosA sinA sqrtA data output t2).snd.task_type ∧
    (extract_features piA cosA sinA sqrtA data output t1).snd.timestamp = t1 ∧
    (extract_features piA cosA sinA sqrtA data output t2).snd.timestamp = t2 :=
  ⟨rfl, rfl, rfl, rfl, rfl, rfl⟩

/-- C10: when the similarity computation returns the −1 sentinel,
template_authenticate still returns success (0) with authenticated = 0 and
similarity_score = −1; the sentinel, which lies outside the documented
[0,1] score range, is reported as an ordinary rejection. -/
theorem template_authenticate_sentinel_reported_as_rejection (piA : ℚ)
    (cosA sinA sqrtA : ℚ → ℚ) (trial : EEGData) (tmpl : Template) (now tnow : Nat)
    (hsim : calculate_similarity sqrtA
      (extract_features piA cosA sinA sqrtA trial (feature_vector_alloc 40) now).snd
      tmpl.features = -1) :
    template_authenticate piA cosA sinA sqrtA trial tmpl now tnow =
      (0, some { authenticated := 0, similarity_score := -1, timestamp := tnow,
                 attempts := 1 }) ∧
    ¬ ((0 : ℚ) ≤ -1 ∧ (-1 : ℚ) ≤ 1) := by
  constructor
  · simp only [template_authenticate]
    rw [if_neg (show ¬ ((extract_features piA cosA sinA sqrtA trial
        (feature_vector_alloc 40) now).fst ≠ 0) from fun hc => hc rfl)]
    rw [hsim]
    rw [if_neg (show ¬ (0.85 : ℚ) ≤ -1 by norm_num)]
  · norm_num

lemma trial_similarity_sentinel :
    calculate_similarity sqrtZ
      (extract_features 0 sqrtZ sqrtZ sqrtZ eegSmall (feature_vector_alloc 40) 0).snd
      tmplZeroFeatures.features = -1 := by
  simp only [calculate_similarity]
  rw [if_neg (show ¬ ((extract_features 0 sqrtZ sqrtZ sqrtZ eegSmall
      (feature_vector_alloc 40) 0).snd.size ≠ tmplZeroFeatures.features.size)
    from fun hc => hc rfl)]
  rw [if_pos (Or.inl (show vector_magnitude sqrtZ
      (extract_features 0 sqrtZ sqrtZ sqrtZ eegSmall (feature_vector_alloc 40) 0).snd.features
      (extract_features 0 sqrtZ sqrtZ sqrtZ eegSmall (feature_vector_alloc 40) 0).snd.size
      < 1/1000000 by simp [vector_magnitude, sqrtZ]))]

/-- Witness for C10 at a concrete trial whose extracted features are all
zero (short input), so the similarity against the stored template is the
−1 sentinel. -/
theorem template_authenticate_sentinel_witness :
    template_authenticate 0 sqrtZ sqrtZ sqrtZ eegSmall tmplZeroFeatures 0 5 =
      (0, some { authenticated := 0, similarity_score := -1, timestamp := 5,
                 attempts := 1 }) ∧
    ¬ ((0 : ℚ) ≤ -1 ∧ (-1 : ℚ) ≤ 1) :=
  template_authenticate_sentinel_reported_as_rejection 0 sqrtZ sqrtZ sqrtZ eegSmall
    tmplZeroFeatures 0 5 trial_similarity_sentinel

/-- C1: loading the very file written by template_save for a concrete
template succeeds (status 0) and reproduces the version, username, task
label and feature vector, but NOT the hash bytes, the salt length or the
salt bytes — the load-side seek arithmetic reads them from the wrong
offsets, so the round-trip claimed by the spec fails on the hash and
salt. -/
theorem template_load_save_corrupts_hash_and_salt :
    (template_load decFZero 0 (template_save encFZero tmplRT)).fst = 0 ∧
    (template_load decFZero 0 (template_save encFZero tmplRT)).snd.version =
      tmplRT.version ∧
    (template_load decFZero 0 (template_save encFZero tmplRT)).snd.username =
      tmplRT.username ∧
    (template_load decFZero 0 (template_save encFZero tmplRT)).snd.task_type =
      tmplRT.task_type ∧
    (template_load decFZero 0 (template_save encFZero tmplRT)).snd.features.features =
      tmplRT.features.features ∧
    (template_load decFZero 0 (template_save encFZero tmplRT)).snd.features.size =
      tmplRT.features.size ∧
    (template_load decFZero 0 (template_save encFZero tmplRT)).snd.hash.hash ≠
      tmplRT.hash.hash ∧
    (template_load decFZero 0 (template_save encFZero tmplRT)).snd.hash.salt_size ≠
      tmplRT.hash.salt_size ∧
    (template_load decFZero 0 (template_save encFZero tmplRT)).snd.hash.salt ≠
      tmplRT.hash.salt :=
  ⟨rfl, by decide, by decide, by decide, rfl, by decide, by decide, by decide, by decide⟩

/-- C3 counterexample: template_load returns success (0), not an IOError, on
a concrete truncated template file. -/
theorem template_load_accepts_truncated_file :
    truncatedFile.length = 328 ∧
    (template_save encFZero tmplRT).length = 336 ∧
    truncatedFile = (template_save encFZero tmplRT).take 328 ∧
    (template_load decFZero 0 truncatedFile).fst = 0 :=
  ⟨by decide, by decide, rfl, rfl⟩

/-- C3 (amended): template_load validates nothing: it returns success (0)
for every file content, every junk fill and every float decoder; only the
fopen and allocation failures absent from the embedding can make it return
an error. -/
theorem template_load_never_validates (decFloat : List Nat → ℚ) (junk : Nat)
    (file : List Nat) :
    (template_load decFloat junk file).fst = 0 :=
  rfl

/-- C4 counterexample: the save trace for a concrete template and
destination is not atomic: nothing is renamed onto the destination and the
destination itself is opened for writing. -/
theorem template_save_not_atomic :
    ¬ atomic_save (template_save_trace encFZero tmplRT "./templates/alice.nlt")
      "./templates/alice.nlt" := by
  rintro ⟨tmp, hne, hopen, hren, hnod⟩
  simp only [template_save_trace, List.mem_cons, List.not_mem_nil, or_false] at hren
  rcases hren with h | h | h | h
  · exact FsOp.noConfusion h
  · exact FsOp.noConfusion h
  · exact FsOp.noConfusion h
  · exact FsOp.noConfusion h

/-- C4 (amended): template_save opens the destination path itself and
writes the record to it directly; its trace contains no rename and no
temporary path, so an interrupted save can leave a half-written file at
the destination. -/
theorem template_save_writes_destination_directly (encFloat : ℚ → List Nat)
    (t : Template) (filepath : String) :
    template_save_trace encFloat t filepath =
      [FsOp.mkdirp "./templates", FsOp.openw filepath,
       FsOp.writeBytes (template_save encFloat t), FsOp.closef] ∧
    (∀ src dst, FsOp.renamef src dst ∉ template_save_trace encFloat t filepath) := by
  refine ⟨rfl, fun src dst hmem => ?_⟩
  simp only [template_save_trace, List.mem_cons, List.not_mem_nil, or_false] at hmem
  rcases hmem with h | h | h | h
  · exact FsOp.noConfusion h
  · exact FsOp.noConfusion h
  · exact FsOp.noConfusion h
  · exact FsOp.noConfusion h

end NeuroLock
